import Mathlib

/-!
Shallow embedding of the OpenAI status monitor (src/monitor.py, src/models.py)
and proofs of the specification claims about its change-detection core.

The network is modelled as an explicit input: each call to the fetcher is
given the `HttpOutcome` the server produced for that request.  All mutable
monitor state (`etags`, `last_known_state`, `processed_incident_updates`)
is threaded explicitly.  Python dictionaries are association lists, Python
sets are lists with decidable membership, and decoded JSON is the `Json`
inductive below.
-/

set_option maxHeartbeats 1000000

namespace StatusMonitor

/-- Decoded JSON values as produced by `response.json()` in Python: the
result of `json.loads`, so objects are dictionaries with unique keys. -/
inductive Json where
  | nullv : Json
  | boolv (b : Bool) : Json
  | num (n : Int) : Json
  | str (s : String) : Json
  | arr (xs : List Json) : Json
  | obj (kvs : List (String × Json)) : Json

mutual

/-- Structural equality of decoded JSON values (Python `==` on the decoded
objects, as used by set membership in `processed_incident_updates`). -/
def Json.beq : Json → Json → Bool
  | .nullv, .nullv => true
  | .boolv b, .boolv c => b == c
  | .num n, .num m => n == m
  | .str s, .str t => s == t
  | .arr xs, .arr ys => Json.beqList xs ys
  | .obj kvs, .obj lws => Json.beqPairs kvs lws
  | _, _ => false

/-- Elementwise `Json.beq` on lists. -/
def Json.beqList : List Json → List Json → Bool
  | [], [] => true
  | x :: xs, y :: ys => Json.beq x y && Json.beqList xs ys
  | _, _ => false

/-- Elementwise `Json.beq` on key-value lists. -/
def Json.beqPairs : List (String × Json) → List (String × Json) → Bool
  | [], [] => true
  | (k, v) :: xs, (l, w) :: ys => k == l && Json.beq v w && Json.beqPairs xs ys
  | _, _ => false

end

mutual

theorem Json.eq_of_beq : ∀ {a b : Json}, Json.beq a b = true → a = b
  | .nullv, .nullv, _ => rfl
  | .boolv b, .boolv c, h => by
      have : b = c := by simpa [Json.beq] using h
      rw [this]
  | .num n, .num m, h => by
      have : n = m := by simpa [Json.beq] using h
      rw [this]
  | .str s, .str t, h => by
      have : s = t := by simpa [Json.beq] using h
      rw [this]
  | .arr xs, .arr ys, h => by
      have : xs = ys := Json.eqList_of_beq (by simpa [Json.beq] using h)
      rw [this]
  | .obj kvs, .obj lws, h => by
      have : kvs = lws := Json.eqPairs_of_beq (by simpa [Json.beq] using h)
      rw [this]
  | .nullv, .boolv _, h => by simp [Json.beq] at h
  | .nullv, .num _, h => by simp [Json.beq] at h
  | .nullv, .str _, h => by simp [Json.beq] at h
  | .nullv, .arr _, h => by simp [Json.beq] at h
  | .nullv, .obj _, h => by simp [Json.beq] at h
  | .boolv _, .nullv, h => by simp [Json.beq] at h
  | .boolv _, .num _, h => by simp [Json.beq] at h
  | .boolv _, .str _, h => by simp [Json.beq] at h
  | .boolv _, .arr _, h => by simp [Json.beq] at h
  | .boolv _, .obj _, h => by simp [Json.beq] at h
  | .num _, .nullv, h => by simp [Json.beq] at h
  | .num _, .boolv _, h => by simp [Json.beq] at h
  | .num _, .str _, h => by simp [Json.beq] at h
  | .num _, .arr _, h => by simp [Json.beq] at h
  | .num _, .obj _, h => by simp [Json.beq] at h
  | .str _, .nullv, h => by simp [Json.beq] at h
  | .str _, .boolv _, h => by simp [Json.beq] at h
  | .str _, .num _, h => by simp [Json.beq] at h
  | .str _, .arr _, h => by simp [Json.beq] at h
  | .str _, .obj _, h => by simp [Json.beq] at h
  | .arr _, .nullv, h => by simp [Json.beq] at h
  | .arr _, .boolv _, h => by simp [Json.beq] at h
  | .arr _, .num _, h => by simp [Json.beq] at h
  | .arr _, .str _, h => by simp [Json.beq] at h
  | .arr _, .obj _, h => by simp [Json.beq] at h
  | .obj _, .nullv, h => by simp [Json.beq] at h
  | .obj _, .boolv _, h => by simp [Json.beq] at h
  | .obj _, .num _, h => by simp [Json.beq] at h
  | .obj _, .str _, h => by simp [Json.beq] at h
  | .obj _, .arr _, h => by simp [Json.beq] at h

theorem Json.eqList_of_beq :
    ∀ {xs ys : List Json}, Json.beqList xs ys = true → xs = ys
  | [], [], _ => rfl
  | x :: xs, y :: ys, h => by
      have h12 := (Bool.and_eq_true _ _).mp (by simpa [Json.beqList] using h)
      rw [Json.eq_of_beq h12.1, Json.eqList_of_beq h12.2]
  | [], _ :: _, h => by simp [Json.beqList] at h
  | _ :: _, [], h => by simp [Json.beqList] at h

theorem Json.eqPairs_of_beq :
    ∀ {xs ys : List (String × Json)}, Json.beqPairs xs ys = true → xs = ys
  | [], [], _ => rfl
  | (k, v) :: xs, (l, w) :: ys, h => by
      have h3 : (k = l ∧ Json.beq v w = true) ∧ Json.beqPairs xs ys = true := by
        simpa [Json.beqPairs, Bool.and_eq_true] using h
      rw [h3.1.1, Json.eq_of_beq h3.1.2, Json.eqPairs_of_beq h3.2]
  | [], _ :: _, h => by simp [Json.beqPairs] at h
  | _ :: _, [], h => by simp [Json.beqPairs] at h

end

mutual

theorem Json.beq_refl : ∀ a : Json, Json.beq a a = true
  | .nullv => rfl
  | .boolv b => by simp [Json.beq]
  | .num n => by simp [Json.beq]
  | .str s => by simp [Json.beq]
  | .arr xs => by simpa [Json.beq] using Json.beqList_refl xs
  | .obj kvs => by simpa [Json.beq] using Json.beqPairs_refl kvs

theorem Json.beqList_refl : ∀ xs : List Json, Json.beqList xs xs = true
  | [] => rfl
  | x :: xs => by
      simp [Json.beqList, Json.beq_refl x, Json.beqList_refl xs]

theorem Json.beqPairs_refl :
    ∀ xs : List (String × Json), Json.beqPairs xs xs = true
  | [] => rfl
  | (k, v) :: xs => by
      simp [Json.beqPairs, Json.beq_refl v, Json.beqPairs_refl xs]

end

instance : DecidableEq Json := fun a b =>
  if h : Json.beq a b = true then .isTrue (Json.eq_of_beq h)
  else .isFalse fun he => h (he ▸ Json.beq_refl a)

mutual

/-- Python `str()` of a decoded JSON value, as used by f-string interpolation
in `_detect_component_changes` (`f"component_{component.id}"` etc.). -/
def Json.pyStr : Json → String
  | .nullv => "None"
  | .boolv b => if b then "True" else "False"
  | .num n => toString n
  | .str s => s
  | .arr xs => "[" ++ Json.pyReprList xs ++ "]"
  | .obj kvs => "\x7b" ++ Json.pyReprPairs kvs ++ "\x7d"

/-- Python `repr()` of a decoded JSON value (used by `str()` of containers). -/
def Json.pyRepr : Json → String
  | .nullv => "None"
  | .boolv b => if b then "True" else "False"
  | .num n => toString n
  | .str s => "\x27" ++ s ++ "\x27"
  | .arr xs => "[" ++ Json.pyReprList xs ++ "]"
  | .obj kvs => "\x7b" ++ Json.pyReprPairs kvs ++ "\x7d"

/-- Comma-separated `repr` of list elements. -/
def Json.pyReprList : List Json → String
  | [] => ""
  | [x] => Json.pyRepr x
  | x :: y :: rest => Json.pyRepr x ++ ", " ++ Json.pyReprList (y :: rest)

/-- Comma-separated `repr` of dictionary entries. -/
def Json.pyReprPairs : List (String × Json) → String
  | [] => ""
  | [kv] => "\x27" ++ kv.1 ++ "\x27: " ++ Json.pyRepr kv.2
  | kv :: kv2 :: rest =>
      "\x27" ++ kv.1 ++ "\x27: " ++ Json.pyRepr kv.2 ++ ", " ++
        Json.pyReprPairs (kv2 :: rest)

end

/-- Python truthiness of a decoded JSON value, as used in
`if summary_data:` / `if incidents_data:` in `check_status_updates`. -/
def Json.isTruthy : Json → Bool
  | .nullv => false
  | .boolv b => b
  | .num n => n != 0
  | .str s => s != ""
  | .arr xs => !xs.isEmpty
  | .obj kvs => !kvs.isEmpty

/-- Lookup in a decoded-JSON object (a Python dict, unique keys). -/
def assocLookup (kvs : List (String × Json)) (k : String) : Option Json :=
  match kvs with
  | [] => none
  | kv :: rest => if kv.1 = k then some kv.2 else assocLookup rest k

/-- A Python `Dict[str, str]` (`self.etags`, `self.last_known_state`):
association list; assignment overwrites in place or appends a fresh key. -/
def dictGet (d : List (String × String)) (k : String) : Option String :=
  match d with
  | [] => none
  | kv :: rest => if kv.1 = k then some kv.2 else dictGet rest k

/-- Python `d[k] = v`: overwrite in place, or append a fresh key. -/
def dictSet (d : List (String × String)) (k v : String) :
    List (String × String) :=
  match d with
  | [] => [(k, v)]
  | kv :: rest => if kv.1 = k then (k, v) :: rest else kv :: dictSet rest k v

/-- `models.ComponentStatus`.  Field values are whatever the decoded JSON
holds (the dataclass performs no type validation). -/
structure ComponentStatus where
  id : Json
  name : Json
  status : Json
  updated_at : Json
  position : Json
deriving DecidableEq

/-- `models.IncidentUpdate`. -/
structure IncidentUpdate where
  id : Json
  body : Json
  created_at : Json
  display_at : Json
  status : Json
  incident_id : Json
deriving DecidableEq

/-- `models.Incident`.  `resolved_at` comes from `inc_data.get("resolved_at")`,
which yields Python `None` (here `Json.nullv`) when the key is absent. -/
structure Incident where
  id : Json
  name : Json
  status : Json
  created_at : Json
  updated_at : Json
  resolved_at : Json
  impact : Json
  updates : List IncidentUpdate
deriving DecidableEq

/-- One emitted notification: a component event carries the `event_type`
string passed to `_log_component_event` ("Initial Status" or
"Status changed from {old_state}"); an incident event carries the incident
and the update passed to `_log_incident_event`. -/
inductive Event where
  | componentEvent (component : ComponentStatus) (event_type : String)
  | incidentEvent (incident : Incident) (update : IncidentUpdate)
deriving DecidableEq

/-- The `state_key` computed in `_detect_component_changes`. -/
def stateKey (component : ComponentStatus) : String :=
  "component_" ++ component.id.pyStr

/-- The `current_state` signature string computed in
`_detect_component_changes`: `f"{component.name}:{component.status}"`. -/
def currentState (component : ComponentStatus) : String :=
  component.name.pyStr ++ ":" ++ component.status.pyStr

/-- `_detect_component_changes`: walk the components in input order against
`last_known_state`, returning the updated dictionary and the emitted events
in emission order. -/
def detectComponentChanges (lks : List (String × String)) :
    List ComponentStatus → List (String × String) × List Event
  | [] => (lks, [])
  | component :: rest =>
    let key := stateKey component
    let cur := currentState component
    match dictGet lks key with
    | none =>
      let step := detectComponentChanges (dictSet lks key cur) rest
      (step.1, Event.componentEvent component "Initial Status" :: step.2)
    | some old_state =>
      if old_state ≠ cur then
        let step := detectComponentChanges (dictSet lks key cur) rest
        (step.1,
          Event.componentEvent component ("Status changed from " ++ old_state)
            :: step.2)
      else
        detectComponentChanges lks rest

/-- Inner loop of `_detect_incident_updates`: one incident's updates in
input order against `processed_incident_updates`. -/
def detectUpdatesOf (incident : Incident) (seen : List Json) :
    List IncidentUpdate → List Json × List Event
  | [] => (seen, [])
  | u :: rest =>
    if u.id ∈ seen then
      detectUpdatesOf incident seen rest
    else
      let step := detectUpdatesOf incident (u.id :: seen) rest
      (step.1, Event.incidentEvent incident u :: step.2)

/-- `_detect_incident_updates`: incidents in input order, updates in input
order within each incident. -/
def detectIncidentUpdates (seen : List Json) :
    List Incident → List Json × List Event
  | [] => (seen, [])
  | incident :: rest =>
    let s1 := detectUpdatesOf incident seen incident.updates
    let s2 := detectIncidentUpdates s1.1 rest
    (s2.1, s1.2 ++ s2.2)

/-- Python exceptions that the parsing code can raise: `KeyError` from
`comp_data["id"]` etc. on a missing key, `TypeError` from subscripting or
iterating a non-dict/non-list, `AttributeError` from `.get` on a non-dict. -/
inductive PyErr where
  | keyError (key : String)
  | typeError
  | attributeError
deriving DecidableEq

instance {ε α : Type} [DecidableEq ε] [DecidableEq α] :
    DecidableEq (Except ε α) := fun x y =>
  match x, y with
  | .ok a, .ok b =>
    if h : a = b then .isTrue (by rw [h]) else .isFalse (by simp [h])
  | .error e, .error f =>
    if h : e = f then .isTrue (by rw [h]) else .isFalse (by simp [h])
  | .ok _, .error _ => .isFalse (by simp)
  | .error _, .ok _ => .isFalse (by simp)

/-- Python subscript `data[k]` on a decoded JSON value: `KeyError k` when
the key is absent from a dict, `TypeError` when `data` is not a dict. -/
def getItem (data : Json) (k : String) : Except PyErr Json :=
  match data with
  | .obj kvs =>
    match assocLookup kvs k with
    | some v => .ok v
    | none => .error (.keyError k)
  | _ => .error .typeError

/-- Python `data.get(k, default)`: `AttributeError` when `data` is not a
dict (no `.get` method). -/
def pyGet (data : Json) (k : String) (dflt : Json) : Except PyErr Json :=
  match data with
  | .obj kvs => .ok ((assocLookup kvs k).getD dflt)
  | _ => .error .attributeError

/-- Python `for x in v`: lists yield elements, strings yield one-character
strings, dicts yield their keys; other values are not iterable. -/
def pyIter : Json → Except PyErr (List Json)
  | .arr xs => .ok xs
  | .str s => .ok (s.toList.map fun c => Json.str (String.singleton c))
  | .obj kvs => .ok (kvs.map fun kv => Json.str kv.1)
  | _ => .error .typeError

/-- Body of the loop in `_parse_components`: build one `ComponentStatus`,
raising `KeyError` on the first missing required field, in source order. -/
def parseComponent (comp_data : Json) : Except PyErr ComponentStatus := do
  let i ← getItem comp_data "id"
  let n ← getItem comp_data "name"
  let s ← getItem comp_data "status"
  let u ← getItem comp_data "updated_at"
  let p ← getItem comp_data "position"
  pure ⟨i, n, s, u, p⟩

/-- `_parse_components`: iterate `data.get("components", [])`. -/
def parse_components (data : Json) : Except PyErr (List ComponentStatus) := do
  let comps ← pyGet data "components" (.arr [])
  let items ← pyIter comps
  items.mapM parseComponent

/-- Inner loop of `_parse_incidents`: build one `IncidentUpdate`. -/
def parseIncidentUpdate (update_data : Json) : Except PyErr IncidentUpdate := do
  let i ← getItem update_data "id"
  let b ← getItem update_data "body"
  let c ← getItem update_data "created_at"
  let d ← getItem update_data "display_at"
  let s ← getItem update_data "status"
  let ii ← getItem update_data "incident_id"
  pure ⟨i, b, c, d, s, ii⟩

/-- Body of the outer loop in `_parse_incidents`: the updates are parsed
first, then the incident's own fields, matching the source order (so a
`KeyError` from an update precedes one from the incident record). -/
def parseIncident (inc_data : Json) : Except PyErr Incident := do
  let updData ← pyGet inc_data "incident_updates" (.arr [])
  let updItems ← pyIter updData
  let updates ← updItems.mapM parseIncidentUpdate
  let i ← getItem inc_data "id"
  let n ← getItem inc_data "name"
  let s ← getItem inc_data "status"
  let c ← getItem inc_data "created_at"
  let u ← getItem inc_data "updated_at"
  let r ← pyGet inc_data "resolved_at" .nullv
  let im ← getItem inc_data "impact"
  pure ⟨i, n, s, c, u, r, im, updates⟩

/-- `_parse_incidents`: iterate `data.get("incidents", [])`. -/
def parse_incidents (data : Json) : Except PyErr (List Incident) := do
  let incs ← pyGet data "incidents" (.arr [])
  let items ← pyIter incs
  items.mapM parseIncident

/-- What `await response.json()` produced: a decoded value, or a
`json.JSONDecodeError`. -/
inductive BodyOutcome where
  | jsonBody (j : Json) : BodyOutcome
  | decodeError (msg : String) : BodyOutcome
deriving DecidableEq

/-- One network interaction as seen by `_fetch_with_etag`: either a
response with a status code, an optional `ETag` header and a body, or an
`aiohttp.ClientError` raised by the transport. -/
inductive HttpOutcome where
  | response (status : Nat) (etagHeader : Option String) (body : BodyOutcome)
  | clientError (msg : String)
deriving DecidableEq

/-- Python `s.strip('\x22')`: remove every leading and trailing
double-quote character. -/
def stripQuotes (s : String) : String :=
  String.mk
    (((s.toList.dropWhile fun c => c = '\"').reverse.dropWhile
      fun c => c = '\"').reverse)

/-- The conditional headers built at the top of `_fetch_with_etag`:
`If-None-Match` is attached exactly when a validator is stored for the
endpoint. -/
def requestHeaders (etags : List (String × String)) (endpoint : String) :
    List (String × String) :=
  match dictGet etags endpoint with
  | some v => [("If-None-Match", v)]
  | none => []

/-- `_fetch_with_etag`, as a function of the stored validators and the
network outcome for this request.  Returns the Python return value
(`Optional[dict]`) together with the updated `self.etags`:
304 → `None`; 200 → store the stripped `ETag` header if it is truthy, then
return the decoded body (or `None` if decoding raised); any other status →
`None`; `aiohttp.ClientError` → `None`.  No other state is touched. -/
def fetchWithEtag (etags : List (String × String)) (endpoint : String)
    (net : HttpOutcome) : Option Json × List (String × String) :=
  match net with
  | .clientError _ => (none, etags)
  | .response status etagHeader body =>
    if status = 304 then
      (none, etags)
    else if status = 200 then
      let etags1 :=
        match etagHeader with
        | some etag =>
          if etag ≠ "" then dictSet etags endpoint (stripQuotes etag)
          else etags
        | none => etags
      match body with
      | .jsonBody j => (some j, etags1)
      | .decodeError _ => (none, etags1)
    else
      (none, etags)

/-- `SUMMARY_ENDPOINT` from the source. -/
def SUMMARY_ENDPOINT : String := "/api/v2/summary.json"

/-- `INCIDENTS_ENDPOINT` from the source. -/
def INCIDENTS_ENDPOINT : String := "/api/v2/incidents.json"

/-- The monitor's mutable state: `self.etags`, `self.last_known_state`,
`self.processed_incident_updates`. -/
structure MonitorState where
  etags : List (String × String)
  last_known_state : List (String × String)
  processed_incident_updates : List Json
deriving DecidableEq

/-- The state of a freshly constructed monitor. -/
def initialState : MonitorState := ⟨[], [], []⟩

/-- The `if summary_data:` block of `check_status_updates`: when the fetch
returned a truthy payload, parse components (possibly raising) and detect
changes; otherwise (`None` or a falsy payload) do nothing. -/
def componentPhase (lks : List (String × String)) (summary_data : Option Json) :
    Except PyErr (List (String × String) × List Event) :=
  match summary_data with
  | some j =>
    if j.isTruthy then
      match parse_components j with
      | .error e => .error e
      | .ok components => .ok (detectComponentChanges lks components)
    else .ok (lks, [])
  | none => .ok (lks, [])

/-- The `if incidents_data:` block of `check_status_updates`. -/
def incidentPhase (seen : List Json) (incidents_data : Option Json) :
    Except PyErr (List Json × List Event) :=
  match incidents_data with
  | some j =>
    if j.isTruthy then
      match parse_incidents j with
      | .error e => .error e
      | .ok incidents => .ok (detectIncidentUpdates seen incidents)
    else .ok (seen, [])
  | none => .ok (seen, [])

/-- `check_status_updates`, one poll cycle: fetch the summary endpoint; if
the result is truthy, parse components and detect changes; then fetch the
incidents endpoint; if truthy, parse incidents and detect updates.  A
`KeyError`/`TypeError`/`AttributeError` raised while parsing is uncaught
and propagates out (modelled by `Except.error`), abandoning the rest of
the cycle — in particular a parse error on the summary endpoint happens
before the incidents endpoint is fetched.  Returns the new state and the
emitted events, component events first. -/
def check_status_updates (st : MonitorState)
    (summaryNet incidentsNet : HttpOutcome) :
    Except PyErr (MonitorState × List Event) :=
  let fs := fetchWithEtag st.etags SUMMARY_ENDPOINT summaryNet
  match componentPhase st.last_known_state fs.1 with
  | .error e => .error e
  | .ok compStep =>
    let fi := fetchWithEtag fs.2 INCIDENTS_ENDPOINT incidentsNet
    match incidentPhase st.processed_incident_updates fi.1 with
    | .error e => .error e
    | .ok incStep =>
      .ok (⟨fi.2, compStep.1, incStep.1⟩, compStep.2 ++ incStep.2)

/-- A whole monitor lifetime of `_detect_incident_updates` calls: fold the
detector over successive incident batches, concatenating the emitted
events. -/
def runIncidentBatches (seen : List Json) :
    List (List Incident) → List Json × List Event
  | [] => (seen, [])
  | batch :: rest =>
    let s1 := detectIncidentUpdates seen batch
    let s2 := runIncidentBatches s1.1 rest
    (s2.1, s1.2 ++ s2.2)

/-- Is this event a component notification? -/
def Event.isComponentEvent : Event → Bool
  | .componentEvent _ _ => true
  | .incidentEvent _ _ => false

/-- Is this event an incident notification? -/
def Event.isIncidentEvent : Event → Bool
  | .componentEvent _ _ => false
  | .incidentEvent _ _ => true

/-- The incident-update id an event announces, if it is an incident event. -/
def Event.updateId : Event → Option Json
  | .componentEvent _ _ => none
  | .incidentEvent _ u => some u.id

/-- The component an event announces, if it is a component event. -/
def Event.componentOf : Event → Option ComponentStatus
  | .componentEvent c _ => some c
  | .incidentEvent _ _ => none

/-- The (incident, update) pair an event announces, if it is an incident
event. -/
def Event.incidentPairOf : Event → Option (Incident × IncidentUpdate)
  | .componentEvent _ _ => none
  | .incidentEvent i u => some (i, u)

/-! ### Dictionary lemmas -/

theorem dictGet_dictSet_self (d : List (String × String)) (k v : String) :
    dictGet (dictSet d k v) k = some v := by
  induction d with
  | nil => simp [dictGet, dictSet]
  | cons kv rest ih =>
    by_cases h : kv.1 = k
    · simp [dictGet, dictSet, h]
    · simp [dictGet, dictSet, h, ih]

theorem dictGet_dictSet_ne (d : List (String × String)) (k v k' : String)
    (h : k' ≠ k) : dictGet (dictSet d k v) k' = dictGet d k' := by
  induction d with
  | nil => simp [dictGet, dictSet, Ne.symm h]
  | cons kv rest ih =>
    by_cases hk : kv.1 = k
    · subst hk
      simp [dictGet, dictSet, Ne.symm h]
    · by_cases hk' : kv.1 = k'
      · simp [dictGet, dictSet, hk, hk', h]
      · simp [dictGet, dictSet, hk, hk', ih]

/-! ### Component-detector lemmas -/

theorem detectComponentChanges_events_are_component (lks : List (String × String))
    (cs : List ComponentStatus) :
    ∀ e ∈ (detectComponentChanges lks cs).2, e.isComponentEvent = true := by
  induction cs generalizing lks with
  | nil => simp [detectComponentChanges]
  | cons c rest ih =>
    intro e he
    simp only [detectComponentChanges] at he
    rcases hget : dictGet lks (stateKey c) with _ | old
    · rw [hget] at he
      simp only [List.mem_cons] at he
      rcases he with rfl | he
      · rfl
      · exact ih _ e he
    · rw [hget] at he
      by_cases hne : old ≠ currentState c
      · simp only [if_pos hne, List.mem_cons] at he
        rcases he with rfl | he
        · rfl
        · exact ih _ e he
      · simp only [if_neg hne] at he
        exact ih _ e he

theorem detectComponentChanges_components_sublist (lks : List (String × String))
    (cs : List ComponentStatus) :
    List.Sublist ((detectComponentChanges lks cs).2.filterMap Event.componentOf)
      cs := by
  induction cs generalizing lks with
  | nil => simp [detectComponentChanges]
  | cons c rest ih =>
    simp only [detectComponentChanges]
    rcases hget : dictGet lks (stateKey c) with _ | old
    · simpa [Event.componentOf] using List.Sublist.cons₂ c (ih _)
    · by_cases hne : old ≠ currentState c
      · simpa [if_pos hne, Event.componentOf] using List.Sublist.cons₂ c (ih _)
      · simpa [if_neg hne] using List.Sublist.cons c (ih _)

theorem detectComponentChanges_frame (lks : List (String × String))
    (cs : List ComponentStatus) (k : String)
    (hk : k ∉ cs.map stateKey) :
    dictGet (detectComponentChanges lks cs).1 k = dictGet lks k := by
  induction cs generalizing lks with
  | nil => simp [detectComponentChanges]
  | cons c rest ih =>
    simp only [List.map_cons, List.mem_cons] at hk
    push_neg at hk
    simp only [detectComponentChanges]
    rcases hget : dictGet lks (stateKey c) with _ | old
    · rw [ih _ (hk.2), dictGet_dictSet_ne _ _ _ _ hk.1]
    · by_cases hne : old ≠ currentState c
      · simp only [if_pos hne]
        rw [ih _ (hk.2), dictGet_dictSet_ne _ _ _ _ hk.1]
      · simp only [if_neg hne]
        exact ih _ hk.2

theorem detectComponentChanges_stable (lks : List (String × String))
    (cs : List ComponentStatus)
    (h : ∀ c ∈ cs, dictGet lks (stateKey c) = some (currentState c)) :
    detectComponentChanges lks cs = (lks, []) := by
  induction cs with
  | nil => simp [detectComponentChanges]
  | cons c rest ih =>
    have hc := h c (List.mem_cons_self c rest)
    simp only [detectComponentChanges, hc, if_neg (by simp : ¬ currentState c ≠ currentState c)]
    exact ih fun c' hc' => h c' (List.mem_cons_of_mem c hc')

theorem detectComponentChanges_fresh (lks : List (String × String))
    (cs : List ComponentStatus)
    (hnd : (cs.map stateKey).Nodup)
    (hfresh : ∀ c ∈ cs, dictGet lks (stateKey c) = none) :
    (detectComponentChanges lks cs).2
        = cs.map (fun c => Event.componentEvent c "Initial Status") ∧
      ∀ c ∈ cs, dictGet (detectComponentChanges lks cs).1 (stateKey c)
        = some (currentState c) := by
  induction cs generalizing lks with
  | nil => simp [detectComponentChanges]
  | cons c rest ih =>
    have hc := hfresh c (List.mem_cons_self c rest)
    simp only [List.map_cons, List.nodup_cons] at hnd
    have hfresh' : ∀ c' ∈ rest, dictGet (dictSet lks (stateKey c) (currentState c))
        (stateKey c') = none := by
      intro c' hc'
      rw [dictGet_dictSet_ne]
      · exact hfresh c' (List.mem_cons_of_mem c hc')
      · intro heq
        exact hnd.1 (heq ▸ List.mem_map_of_mem stateKey hc')
    obtain ⟨hev, hlook⟩ := ih (dictSet lks (stateKey c) (currentState c)) hnd.2 hfresh'
    constructor
    · simp only [detectComponentChanges, hc, hev, List.map_cons]
    · intro c' hc'
      rcases List.mem_cons.mp hc' with rfl | hmem
      · simp only [detectComponentChanges, hc]
        rw [detectComponentChanges_frame _ _ _ (by simpa using hnd.1)]
        exact dictGet_dictSet_self _ _ _
      · simp only [detectComponentChanges, hc]
        exact hlook c' hmem

/-! ### Incident-detector lemmas -/

/-- The update ids announced by a list of events. -/
def eventIds (evs : List Event) : List Json := evs.filterMap Event.updateId

/-- The ids of every update of every incident of a batch. -/
def allUpdateIds (incs : List Incident) : List Json :=
  (incs.map fun i => i.updates.map fun u => u.id).flatten

theorem detectUpdatesOf_spec (incident : Incident) (seen : List Json)
    (us : List IncidentUpdate) :
    (∀ x, x ∈ (detectUpdatesOf incident seen us).1 ↔
        x ∈ seen ∨ x ∈ eventIds (detectUpdatesOf incident seen us).2) ∧
      (eventIds (detectUpdatesOf incident seen us).2).Nodup ∧
      (∀ i ∈ eventIds (detectUpdatesOf incident seen us).2, i ∉ seen) ∧
      (∀ e ∈ (detectUpdatesOf incident seen us).2, e.isIncidentEvent = true) := by
  induction us generalizing seen with
  | nil => simp [detectUpdatesOf, eventIds]
  | cons u rest ih =>
    by_cases hmem : u.id ∈ seen
    · simp only [detectUpdatesOf, if_pos hmem]
      exact ih seen
    · obtain ⟨ihmem, ihnd, ihdisj, ihinc⟩ := ih (u.id :: seen)
      simp only [detectUpdatesOf, if_neg hmem, eventIds, List.filterMap_cons,
        Event.updateId] at *
      refine ⟨?_, ?_, ?_, ?_⟩
      · intro x
        rw [ihmem x]
        simp only [List.mem_cons]
        tauto
      · refine List.nodup_cons.mpr ⟨?_, ihnd⟩
        intro hin
        exact ihdisj u.id hin (List.mem_cons_self _ _)
      · intro i hi
        rcases List.mem_cons.mp hi with rfl | hi'
        · exact hmem
        · exact fun hs => ihdisj i hi' (List.mem_cons_of_mem _ hs)
      · intro e he
        rcases List.mem_cons.mp he with rfl | he'
        · rfl
        · exact ihinc e he'

theorem detectUpdatesOf_pairs_sublist (incident : Incident) (seen : List Json)
    (us : List IncidentUpdate) :
    List.Sublist
      ((detectUpdatesOf incident seen us).2.filterMap Event.incidentPairOf)
      (us.map fun u => (incident, u)) := by
  induction us generalizing seen with
  | nil => simp [detectUpdatesOf]
  | cons u rest ih =>
    by_cases hmem : u.id ∈ seen
    · simp only [detectUpdatesOf, if_pos hmem, List.map_cons]
      exact List.Sublist.cons _ (ih seen)
    · simp only [detectUpdatesOf, if_neg hmem, List.map_cons,
        List.filterMap_cons, Event.incidentPairOf]
      exact List.Sublist.cons₂ _ (ih _)

theorem detectIncidentUpdates_spec (seen : List Json) (incs : List Incident) :
    (∀ x, x ∈ (detectIncidentUpdates seen incs).1 ↔
        x ∈ seen ∨ x ∈ eventIds (detectIncidentUpdates seen incs).2) ∧
      (eventIds (detectIncidentUpdates seen incs).2).Nodup ∧
      (∀ i ∈ eventIds (detectIncidentUpdates seen incs).2, i ∉ seen) ∧
      (∀ e ∈ (detectIncidentUpdates seen incs).2, e.isIncidentEvent = true) := by
  induction incs generalizing seen with
  | nil => simp [detectIncidentUpdates, eventIds]
  | cons inc rest ih =>
    obtain ⟨umem, und, udisj, uinc⟩ := detectUpdatesOf_spec inc seen inc.updates
    obtain ⟨rmem, rnd, rdisj, rinc⟩ := ih (detectUpdatesOf inc seen inc.updates).1
    simp only [detectIncidentUpdates, eventIds, List.filterMap_append] at *
    refine ⟨?_, ?_, ?_, ?_⟩
    · intro x
      rw [rmem x, umem x]
      simp only [List.mem_append]
      tauto
    · refine List.Nodup.append und rnd ?_
      intro a ha hb
      exact rdisj a hb ((umem a).mpr (Or.inr ha))
    · intro i hi
      rcases List.mem_append.mp hi with hi' | hi'
      · exact udisj i hi'
      · exact fun hs => rdisj i hi' ((umem i).mpr (Or.inl hs))
    · intro e he
      rcases List.mem_append.mp he with he' | he'
      · exact uinc e he'
      · exact rinc e he'

theorem detectUpdatesOf_all_seen (incident : Incident) (seen : List Json)
    (us : List IncidentUpdate) (h : ∀ u ∈ us, u.id ∈ seen) :
    detectUpdatesOf incident seen us = (seen, []) := by
  induction us with
  | nil => rfl
  | cons u rest ih =>
    simp only [detectUpdatesOf, if_pos (h u (List.mem_cons_self u rest))]
    exact ih fun u' hu' => h u' (List.mem_cons_of_mem u hu')

theorem detectIncidentUpdates_all_seen (seen : List Json)
    (incs : List Incident) (h : ∀ x ∈ allUpdateIds incs, x ∈ seen) :
    detectIncidentUpdates seen incs = (seen, []) := by
  induction incs with
  | nil => rfl
  | cons inc rest ih =>
    have hinc : detectUpdatesOf inc seen inc.updates = (seen, []) := by
      refine detectUpdatesOf_all_seen inc seen inc.updates fun u hu => ?_
      refine h u.id ?_
      simp only [allUpdateIds, List.mem_flatten, List.mem_map]
      exact ⟨inc.updates.map fun u => u.id, ⟨inc, List.mem_cons_self _ _, rfl⟩,
        List.mem_map_of_mem _ hu⟩
    have hrest : detectIncidentUpdates seen rest = (seen, []) := by
      refine ih fun x hx => h x ?_
      simp only [allUpdateIds, List.mem_flatten, List.mem_map] at hx ⊢
      obtain ⟨l, ⟨i, hi, rfl⟩, hxl⟩ := hx
      exact ⟨i.updates.map fun u => u.id, ⟨i, List.mem_cons_of_mem _ hi, rfl⟩, hxl⟩
    simp [detectIncidentUpdates, hinc, hrest]

theorem detectUpdatesOf_ids_subset (incident : Incident) (seen : List Json)
    (us : List IncidentUpdate) :
    ∀ u ∈ us, u.id ∈ (detectUpdatesOf incident seen us).1 := by
  induction us generalizing seen with
  | nil => simp
  | cons v rest ih =>
    intro u hu
    by_cases hv : v.id ∈ seen
    · simp only [detectUpdatesOf, if_pos hv]
      rcases List.mem_cons.mp hu with rfl | hu2
      · exact ((detectUpdatesOf_spec incident seen rest).1 u.id).mpr (Or.inl hv)
      · exact ih seen u hu2
    · simp only [detectUpdatesOf, if_neg hv]
      rcases List.mem_cons.mp hu with rfl | hu2
      · exact ((detectUpdatesOf_spec incident (u.id :: seen) rest).1 u.id).mpr
          (Or.inl (List.mem_cons_self _ _))
      · exact ih (v.id :: seen) u hu2

theorem detectIncidentUpdates_ids_subset (seen : List Json)
    (incs : List Incident) :
    ∀ x ∈ allUpdateIds incs, x ∈ (detectIncidentUpdates seen incs).1 := by
  induction incs generalizing seen with
  | nil => simp [allUpdateIds]
  | cons inc rest ih =>
    intro x hx
    simp only [allUpdateIds, List.map_cons, List.flatten_cons,
      List.mem_append] at hx
    have hmono := (detectIncidentUpdates_spec
      (detectUpdatesOf inc seen inc.updates).1 rest).1
    rcases hx with hx | hx
    · obtain ⟨u, hu, rfl⟩ := List.mem_map.mp hx
      have hx1 := detectUpdatesOf_ids_subset inc seen inc.updates u hu
      simp only [detectIncidentUpdates]
      exact (hmono u.id).mpr (Or.inl hx1)
    · simp only [detectIncidentUpdates]
      exact ih _ x (by simpa [allUpdateIds] using hx)

theorem runIncidentBatches_spec (s0 : List Json)
    (batches : List (List Incident)) :
    (∀ x, x ∈ (runIncidentBatches s0 batches).1 ↔
        x ∈ s0 ∨ x ∈ eventIds (runIncidentBatches s0 batches).2) ∧
      (eventIds (runIncidentBatches s0 batches).2).Nodup ∧
      (∀ i ∈ eventIds (runIncidentBatches s0 batches).2, i ∉ s0) := by
  induction batches generalizing s0 with
  | nil => simp [runIncidentBatches, eventIds]
  | cons batch rest ih =>
    obtain ⟨bmem, bnd, bdisj, _⟩ := detectIncidentUpdates_spec s0 batch
    obtain ⟨rmem, rnd, rdisj⟩ := ih (detectIncidentUpdates s0 batch).1
    simp only [runIncidentBatches, eventIds, List.filterMap_append] at *
    refine ⟨?_, ?_, ?_⟩
    · intro x
      rw [rmem x, bmem x]
      simp only [List.mem_append]
      tauto
    · exact List.Nodup.append bnd rnd
        (fun a ha hb => rdisj a hb ((bmem a).mpr (Or.inr ha)))
    · intro i hi
      rcases List.mem_append.mp hi with h1 | h1
      · exact bdisj i h1
      · exact fun hs => rdisj i h1 ((bmem i).mpr (Or.inl hs))

/-! ### Specification-side component observer (§4.3 of the spec) -/

/-- The spec's component algorithm for a single component, with the
signature realised as the stored string `name:status`: unseen id → Initial
event, store; stored signature differs → Changed event citing the previous
signature, overwrite; otherwise no event. -/
def specObserveStep (mem : List (String × String)) (c : ComponentStatus) :
    List (String × String) × Option Event :=
  let sig := currentState c
  match dictGet mem (stateKey c) with
  | none =>
      (dictSet mem (stateKey c) sig,
        some (.componentEvent c "Initial Status"))
  | some prev =>
      if prev = sig then (mem, none)
      else
        (dictSet mem (stateKey c) sig,
          some (.componentEvent c ("Status changed from " ++ prev)))

/-- The spec's component algorithm over a whole payload: each component
handled by `specObserveStep` in input order. -/
def specObserveComponents (mem : List (String × String)) :
    List ComponentStatus → List (String × String) × List Event
  | [] => (mem, [])
  | c :: rest =>
    let s1 := specObserveStep mem c
    let s2 := specObserveComponents s1.1 rest
    (s2.1, s1.2.toList ++ s2.2)

theorem detectComponentChanges_emits_head (lks : List (String × String))
    (c : ComponentStatus) (cs : List ComponentStatus)
    (h : dictGet lks (stateKey c) ≠ some (currentState c)) :
    ∃ t rest, (detectComponentChanges lks (c :: cs)).2
      = Event.componentEvent c t :: rest := by
  simp only [detectComponentChanges]
  rcases hget : dictGet lks (stateKey c) with _ | old
  · exact ⟨_, _, rfl⟩
  · have hne : old ≠ currentState c := fun he => h (by rw [hget, he])
    simp only [if_pos hne]
    exact ⟨_, _, rfl⟩

/-! ### Phase lemmas -/

theorem componentPhase_ok_events (lks : List (String × String))
    (d : Option Json) (r : List (String × String) × List Event)
    (h : componentPhase lks d = .ok r) :
    ∀ e ∈ r.2, e.isComponentEvent = true := by
  cases d with
  | none =>
    simp only [componentPhase, Except.ok.injEq] at h
    rw [← h]
    simp
  | some j =>
    simp only [componentPhase] at h
    by_cases ht : j.isTruthy
    · rw [if_pos ht] at h
      cases hp : parse_components j with
      | error e => rw [hp] at h; cases h
      | ok comps =>
        rw [hp] at h
        simp only [Except.ok.injEq] at h
        rw [← h]
        exact detectComponentChanges_events_are_component lks comps
    · rw [if_neg ht] at h
      simp only [Except.ok.injEq] at h
      rw [← h]
      simp

theorem incidentPhase_ok_events (seen : List Json) (d : Option Json)
    (r : List Json × List Event) (h : incidentPhase seen d = .ok r) :
    ∀ e ∈ r.2, e.isIncidentEvent = true := by
  cases d with
  | none =>
    simp only [incidentPhase, Except.ok.injEq] at h
    rw [← h]
    simp
  | some j =>
    simp only [incidentPhase] at h
    by_cases ht : j.isTruthy
    · rw [if_pos ht] at h
      cases hp : parse_incidents j with
      | error e => rw [hp] at h; cases h
      | ok incs =>
        rw [hp] at h
        simp only [Except.ok.injEq] at h
        rw [← h]
        exact (detectIncidentUpdates_spec seen incs).2.2.2
    · rw [if_neg ht] at h
      simp only [Except.ok.injEq] at h
      rw [← h]
      simp

/-! ### Concrete fixtures (spec §8 scenarios and counterexample inputs) -/

/-- Fixture: the spec's §8 component `{id:"c1", name:"API",
status:"operational", updated_at:"t1", position:1}`. -/
def apiOperational : ComponentStatus :=
  ⟨.str "c1", .str "API", .str "operational", .str "t1", .num 1⟩

/-- Fixture: a summary payload containing exactly `apiOperational`. -/
def summaryFixture : Json :=
  .obj [("components", .arr [.obj [("id", .str "c1"), ("name", .str "API"),
    ("status", .str "operational"), ("updated_at", .str "t1"),
    ("position", .num 1)]])]

/-- Fixture: component record missing every required field but `id`. -/
def malformedSummary : Json :=
  .obj [("components", .arr [.obj [("id", .str "c1")]])]

/-- Fixture: a well-formed incidents payload holding one incident with one
update `u1`. -/
def goodIncidentsJson : Json :=
  .obj [("incidents", .arr [.obj [
    ("incident_updates", .arr [.obj [("id", .str "u1"),
      ("body", .str "b"), ("created_at", .str "t"),
      ("display_at", .str "t"), ("status", .str "s"),
      ("incident_id", .str "i1")]]),
    ("id", .str "i1"), ("name", .str "n"), ("status", .str "s"),
    ("created_at", .str "t"), ("updated_at", .str "t"),
    ("impact", .str "major")]])]

/-- Fixture: an incident `i1` with updates `u1`, `u2`. -/
def incidentFixture : Incident :=
  ⟨.str "i1", .str "API down", .str "resolved", .str "t", .str "t", .nullv,
    .str "major", [⟨.str "u1", .str "b1", .str "t", .str "t",
      .str "investigating", .str "i1"⟩,
    ⟨.str "u2", .str "b2", .str "t", .str "t", .str "resolved", .str "i1"⟩]⟩

/-- Fixture: component with a colon inside the name. -/
def colonNameA : ComponentStatus :=
  ⟨.str "1", .str "a:b", .str "c", .str "t", .num 1⟩

/-- Fixture: same id as `colonNameA` but the colon moved into the status:
a different `(name, status)` pair with the same `name:status` string. -/
def colonNameB : ComponentStatus :=
  ⟨.str "1", .str "a", .str "b:c", .str "t", .num 1⟩

/-- Fixture: component id "1" with status "x". -/
def dupIdX : ComponentStatus :=
  ⟨.str "1", .str "a", .str "x", .str "t", .num 1⟩

/-- Fixture: component id "1" with status "y" — same id as `dupIdX`. -/
def dupIdY : ComponentStatus :=
  ⟨.str "1", .str "a", .str "y", .str "t", .num 1⟩

/-! ### Claim C1 -/

/-- C1 counterexample: the detector stores the joined string
`name:status`, not the `(name, status)` pair.  After observing
`colonNameA` (pair `("a:b", "c")`), observing `colonNameB` (pair
`("a", "b:c")`) finds an equal stored string, so no event is emitted and
the state is untouched, although the stored pair differs from the current
pair — refuting the claim's final sentence. -/
theorem C1_counterexample :
    (colonNameA.name, colonNameA.status) ≠ (colonNameB.name, colonNameB.status)
      ∧ detectComponentChanges (detectComponentChanges [] [colonNameA]).1
          [colonNameB]
        = ((detectComponentChanges [] [colonNameA]).1, []) := by
  constructor
  · decide
  · decide

/-- C1 (amended): with the signature taken to be the string
`name:status` actually stored by the code, `_detect_component_changes`
handles each component in input order exactly as the spec's three-case
algorithm prescribes (`specObserveComponents`), and whenever the stored
string differs from the current string (or the id is unseen) the emitted
event sequence starts with an event for that component. -/
theorem C1_component_algorithm :
    (∀ (lks : List (String × String)) (cs : List ComponentStatus),
      detectComponentChanges lks cs = specObserveComponents lks cs) ∧
    (∀ (lks : List (String × String)) (c : ComponentStatus)
        (cs : List ComponentStatus),
      dictGet lks (stateKey c) ≠ some (currentState c) →
      ∃ t rest, (detectComponentChanges lks (c :: cs)).2
        = Event.componentEvent c t :: rest) := by
  constructor
  · intro lks cs
    induction cs generalizing lks with
    | nil => rfl
    | cons c rest ih =>
      simp only [detectComponentChanges, specObserveComponents, specObserveStep]
      rcases hget : dictGet lks (stateKey c) with _ | old
      · simp [ih]
      · by_cases hne : old = currentState c
        · simp [hne, ih]
        · simp [hne, ih]
  · exact detectComponentChanges_emits_head

/-- C1 witness: a fresh component id is not stored, and observing it emits
an event for it first. -/
theorem C1_component_algorithm_witness :
    dictGet [] (stateKey apiOperational) ≠ some (currentState apiOperational)
      ∧ ∃ t rest, (detectComponentChanges [] [apiOperational]).2
        = Event.componentEvent apiOperational t :: rest :=
  ⟨by decide, C1_component_algorithm.2 [] apiOperational [] (by decide)⟩

/-! ### Claim C2 -/

/-- C2: incident-update dedup.  Over any monitor lifetime (any starting
seen-set and any sequence of `_detect_incident_updates` calls): the
emitted update ids contain no duplicate, none of them was already in the
seen-set, the final seen-set is exactly the initial one plus the emitted
ids (an id is added exactly when its event is emitted), and re-feeding a
batch just processed emits zero events and leaves the seen-set unchanged. -/
theorem C2_dedup :
    (∀ (s0 : List Json) (batches : List (List Incident)),
      (eventIds (runIncidentBatches s0 batches).2).Nodup ∧
      (∀ i ∈ eventIds (runIncidentBatches s0 batches).2, i ∉ s0) ∧
      (∀ x, x ∈ (runIncidentBatches s0 batches).1 ↔
          x ∈ s0 ∨ x ∈ eventIds (runIncidentBatches s0 batches).2)) ∧
    (∀ (seen : List Json) (incs : List Incident),
      detectIncidentUpdates (detectIncidentUpdates seen incs).1 incs
        = ((detectIncidentUpdates seen incs).1, [])) := by
  constructor
  · intro s0 batches
    obtain ⟨hmem, hnd, hdisj⟩ := runIncidentBatches_spec s0 batches
    exact ⟨hnd, hdisj, hmem⟩
  · intro seen incs
    exact detectIncidentUpdates_all_seen _ incs
      (fun x hx => detectIncidentUpdates_ids_subset seen incs x hx)

/-- C2 witness: update `u1` of the fixture incident is emitted when the
batch is processed from a seen-set not containing it, and was indeed not
in that seen-set. -/
theorem C2_dedup_witness :
    Json.str "u1"
        ∈ eventIds (runIncidentBatches [Json.str "z"] [[incidentFixture]]).2
      ∧ Json.str "u1" ∉ [Json.str "z"] :=
  ⟨by decide, (C2_dedup.1 [Json.str "z"] [[incidentFixture]]).2.1
    (Json.str "u1") (by decide)⟩

/-! ### Claim C3 -/

/-- C3 counterexample: a components payload that lists the same id twice
with two different statuses.  Replaying it does not emit zero events on
the second call: each call emits a `Changed` event as the two occurrences
keep overwriting each other's stored signature. -/
theorem C3_counterexample :
    (detectComponentChanges (detectComponentChanges [] [dupIdX, dupIdY]).1
        [dupIdX, dupIdY]).2 ≠ [] := by
  decide

/-- C3 (amended): for a payload whose component state keys are pairwise
distinct, observed from a state containing none of them, the first call
emits exactly one Initial event per component in input order, and the
second call with the identical payload emits zero events and leaves the
state exactly as the first call left it. -/
theorem C3_idempotent_replay (s0 : List (String × String))
    (cs : List ComponentStatus)
    (hnd : (cs.map stateKey).Nodup)
    (hfresh : ∀ c ∈ cs, dictGet s0 (stateKey c) = none) :
    (detectComponentChanges s0 cs).2
        = cs.map (fun c => Event.componentEvent c "Initial Status") ∧
      detectComponentChanges (detectComponentChanges s0 cs).1 cs
        = ((detectComponentChanges s0 cs).1, []) := by
  obtain ⟨hev, hlook⟩ := detectComponentChanges_fresh s0 cs hnd hfresh
  exact ⟨hev, detectComponentChanges_stable _ cs hlook⟩

/-- C3 witness: the spec's §8 single-component payload from the empty
state. -/
theorem C3_idempotent_replay_witness :
    ([apiOperational].map stateKey).Nodup
      ∧ (∀ c ∈ [apiOperational], dictGet [] (stateKey c) = none)
      ∧ (detectComponentChanges [] [apiOperational]).2
          = [apiOperational].map
              (fun c => Event.componentEvent c "Initial Status")
      ∧ detectComponentChanges
            (detectComponentChanges [] [apiOperational]).1 [apiOperational]
          = ((detectComponentChanges [] [apiOperational]).1, []) := by
  refine ⟨by decide, by decide, ?_⟩
  have h := C3_idempotent_replay [] [apiOperational] (by decide) (by decide)
  exact h

/-! ### Fetcher lemmas -/

theorem fetchWithEtag_fst_independent (e1 e2 : List (String × String))
    (ep : String) (net : HttpOutcome) :
    (fetchWithEtag e1 ep net).1 = (fetchWithEtag e2 ep net).1 := by
  cases net with
  | clientError m => rfl
  | response status hdr body =>
    simp only [fetchWithEtag]
    by_cases h304 : status = 304
    · simp [h304]
    · by_cases h200 : status = 200
      · cases hdr <;> cases body <;> simp [h304, h200]
      · simp [h304, h200]

theorem fetchWithEtag_etags_frame (etags : List (String × String))
    (ep : String) (net : HttpOutcome) (k : String) (hk : k ≠ ep) :
    dictGet (fetchWithEtag etags ep net).2 k = dictGet etags k := by
  cases net with
  | clientError m => rfl
  | response status hdr body =>
    simp only [fetchWithEtag]
    by_cases h304 : status = 304
    · simp [h304]
    · by_cases h200 : status = 200
      · cases hdr with
        | none => cases body <;> simp [h304, h200]
        | some etag =>
          by_cases he : etag ≠ ""
          · cases body <;>
              simp [h304, h200, he, dictGet_dictSet_ne _ _ _ _ hk]
          · cases body <;> simp [h304, h200, he]
      · simp [h304, h200]

/-! ### Claim C4 -/

/-- C4 counterexample: a summary payload whose component record lacks the
required `name` field makes the whole cycle raise `KeyError("name")` —
even though the incidents endpoint would have delivered a fresh incident.
There is no `MalformedPayload` value and the error is not contained at
per-endpoint granularity: the incidents endpoint is never even fetched. -/
theorem C4_counterexample :
    check_status_updates initialState
        (.response 200 (some "e1") (.jsonBody malformedSummary))
        (.response 200 (some "e2") (.jsonBody goodIncidentsJson))
      = .error (.keyError "name") := by
  decide

/-- C4 (amended): a record missing a required field fails with an uncaught
`KeyError` naming the first missing field; the error propagates out of
`check_status_updates`, so a malformed summary payload aborts the cycle
for every starting state and regardless of what the incidents endpoint
would have answered. -/
theorem C4_parse_error_aborts :
    (∀ (st : MonitorState) (iNet : HttpOutcome),
      check_status_updates st
          (.response 200 none (.jsonBody malformedSummary)) iNet
        = .error (.keyError "name")) ∧
    (∀ kvs : List (String × Json), assocLookup kvs "id" = none →
      parseComponent (.obj kvs) = .error (.keyError "id")) ∧
    (∀ kvs : List (String × Json), assocLookup kvs "id" = none →
      parseIncidentUpdate (.obj kvs) = .error (.keyError "id")) := by
  refine ⟨?_, ?_, ?_⟩
  · intro st iNet
    have htr : Json.isTruthy malformedSummary = true := by decide
    have hps : parse_components malformedSummary
        = .error (.keyError "name") := by decide
    have hfs : (fetchWithEtag st.etags SUMMARY_ENDPOINT
        (.response 200 none (.jsonBody malformedSummary))).1
        = some malformedSummary := by
      simp [fetchWithEtag]
    have hp : componentPhase st.last_known_state (some malformedSummary)
        = .error (.keyError "name") := by
      simp [componentPhase, htr, hps]
    simp [check_status_updates, hfs, hp]
  · intro kvs h
    simp only [parseComponent, getItem, h]
    rfl
  · intro kvs h
    simp only [parseIncidentUpdate, getItem, h]
    rfl

/-- C4 witness: a component record with only a `name` field lacks `id`,
and parsing it raises `KeyError("id")`. -/
theorem C4_parse_error_aborts_witness :
    assocLookup [("name", Json.str "x")] "id" = none
      ∧ parseComponent (.obj [("name", Json.str "x")])
        = .error (.keyError "id") :=
  ⟨by decide, C4_parse_error_aborts.2.1 [("name", Json.str "x")] (by decide)⟩

/-! ### Claim C5 -/

/-- C5 counterexample: `_fetch_with_etag` returns the same value (`None`,
validators untouched) for an HTTP 304 as for a transport error, so the
caller cannot tell an HTTP 304 apart from a failed fetch — the function
does not return three distinguishable outcomes. -/
theorem C5_counterexample :
    fetchWithEtag [] SUMMARY_ENDPOINT (.response 304 none (.jsonBody .nullv))
      = fetchWithEtag [] SUMMARY_ENDPOINT
          (.clientError "connection reset") := by
  decide

/-- C5 (amended): the fetcher returns only two distinguishable outcomes:
`some payload` exactly for an HTTP 200 whose body decodes, and `None` for
everything else — HTTP 304, any unexpected status, a transport error and
a decode error all collapse to `None`, with 304 and transport error
returning fully identical results. -/
theorem C5_two_outcomes :
    (∀ (etags : List (String × String)) (ep : String) (net : HttpOutcome)
        (j : Json),
      (fetchWithEtag etags ep net).1 = some j ↔
        ∃ h, net = .response 200 h (.jsonBody j)) ∧
    (∀ (etags : List (String × String)) (ep m : String)
        (h : Option String) (b : BodyOutcome),
      fetchWithEtag etags ep (.response 304 h b)
        = fetchWithEtag etags ep (.clientError m)) := by
  constructor
  · intro etags ep net j
    cases net with
    | clientError m => simp [fetchWithEtag]
    | response status hdr body =>
      by_cases h304 : status = 304
      · subst h304
        simp [fetchWithEtag]
      · by_cases h200 : status = 200
        · subst h200
          cases body with
          | jsonBody jb => simp [fetchWithEtag]
          | decodeError m => simp [fetchWithEtag]
        · simp [fetchWithEtag, h304, h200]
  · intro etags ep m h b
    simp [fetchWithEtag]

/-- C5 witness: a decodable 200 response is reported as `some payload`. -/
theorem C5_two_outcomes_witness :
    (fetchWithEtag [] SUMMARY_ENDPOINT
        (.response 200 none (.jsonBody (.obj [])))).1 = some (.obj []) :=
  (C5_two_outcomes.1 [] SUMMARY_ENDPOINT
    (.response 200 none (.jsonBody (.obj []))) (.obj [])).mpr ⟨none, rfl⟩

theorem detectIncidentUpdates_pairs_sublist (seen : List Json)
    (incs : List Incident) :
    List.Sublist
      ((detectIncidentUpdates seen incs).2.filterMap Event.incidentPairOf)
      ((incs.map fun i => i.updates.map fun u => (i, u)).flatten) := by
  induction incs generalizing seen with
  | nil => simp [detectIncidentUpdates]
  | cons inc rest ih =>
    simp only [detectIncidentUpdates, List.map_cons, List.flatten_cons,
      List.filterMap_append]
    exact List.Sublist.append (detectUpdatesOf_pairs_sublist inc seen _) (ih _)

/-! ### Claim C6 -/

/-- C6: if the summary fetch delivers a payload whose detection emits
exactly one event while the incidents fetch raises a transport error, the
cycle returns normally (no exception) with exactly that one event — which
is a component event — and the incident memory untouched: the incidents
failure does not suppress the summary endpoint's detection. -/
theorem C6_partial_failure (st : MonitorState) (hdr : Option String)
    (j : Json) (comps : List ComponentStatus) (m : String) (ev : Event)
    (htruthy : j.isTruthy = true)
    (hparse : parse_components j = .ok comps)
    (hone : (detectComponentChanges st.last_known_state comps).2 = [ev]) :
    ∃ st' : MonitorState,
      check_status_updates st (.response 200 hdr (.jsonBody j))
          (.clientError m)
        = .ok (st', [ev]) ∧
      ev.isComponentEvent = true ∧
      st'.processed_incident_updates = st.processed_incident_updates := by
  have hfs : (fetchWithEtag st.etags SUMMARY_ENDPOINT
      (.response 200 hdr (.jsonBody j))).1 = some j := by
    cases hdr <;> simp [fetchWithEtag]
  have hcp : componentPhase st.last_known_state (some j)
      = .ok (detectComponentChanges st.last_known_state comps) := by
    simp [componentPhase, htruthy, hparse]
  have hcheck : check_status_updates st (.response 200 hdr (.jsonBody j))
      (.clientError m)
      = .ok (⟨(fetchWithEtag st.etags SUMMARY_ENDPOINT
            (.response 200 hdr (.jsonBody j))).2,
          (detectComponentChanges st.last_known_state comps).1,
          st.processed_incident_updates⟩,
        (detectComponentChanges st.last_known_state comps).2) := by
    simp [check_status_updates, hfs, hcp, incidentPhase, fetchWithEtag]
  refine ⟨⟨(fetchWithEtag st.etags SUMMARY_ENDPOINT
      (.response 200 hdr (.jsonBody j))).2,
    (detectComponentChanges st.last_known_state comps).1,
    st.processed_incident_updates⟩, by rw [hcheck, hone], ?_, rfl⟩
  refine detectComponentChanges_events_are_component
    st.last_known_state comps ev ?_
  rw [hone]
  exact List.mem_cons_self _ _

/-- C6 witness: the spec's §8 one-component summary with a transport
error on the incidents endpoint. -/
theorem C6_partial_failure_witness :
    Json.isTruthy summaryFixture = true
      ∧ parse_components summaryFixture = .ok [apiOperational]
      ∧ (detectComponentChanges initialState.last_known_state
            [apiOperational]).2
          = [Event.componentEvent apiOperational "Initial Status"]
      ∧ ∃ st' : MonitorState,
        check_status_updates initialState
            (.response 200 none (.jsonBody summaryFixture))
            (.clientError "boom")
          = .ok (st', [Event.componentEvent apiOperational "Initial Status"])
        ∧ (Event.componentEvent apiOperational
            "Initial Status").isComponentEvent = true
        ∧ st'.processed_incident_updates
            = initialState.processed_incident_updates :=
  ⟨by decide, by decide, by decide,
    C6_partial_failure initialState none summaryFixture [apiOperational]
      "boom" _ (by decide) (by decide) (by decide)⟩

/-! ### Claim C7 -/

/-- C7: an HTTP 304 mutates nothing.  The fetcher returns `None` leaving
the validators untouched; a cycle in which both endpoints answer 304
returns the state unchanged with zero events; and one-sidedly, a 304 on
the summary endpoint leaves `last_known_state` and the summary validator
unchanged whatever the incidents endpoint does, while a 304 on the
incidents endpoint leaves `processed_incident_updates` and the incidents
validator unchanged whatever the summary endpoint does. -/
theorem C7_unchanged_frame :
    (∀ (etags : List (String × String)) (ep : String) (h : Option String)
        (b : BodyOutcome),
      fetchWithEtag etags ep (.response 304 h b) = (none, etags)) ∧
    (∀ (st : MonitorState) (h1 h2 : Option String) (b1 b2 : BodyOutcome),
      check_status_updates st (.response 304 h1 b1) (.response 304 h2 b2)
        = .ok (st, [])) ∧
    (∀ (st : MonitorState) (h1 : Option String) (b1 : BodyOutcome)
        (iNet : HttpOutcome) (st' : MonitorState) (evs : List Event),
      check_status_updates st (.response 304 h1 b1) iNet = .ok (st', evs) →
        st'.last_known_state = st.last_known_state ∧
        dictGet st'.etags SUMMARY_ENDPOINT
          = dictGet st.etags SUMMARY_ENDPOINT) ∧
    (∀ (st : MonitorState) (sNet : HttpOutcome) (h2 : Option String)
        (b2 : BodyOutcome) (st' : MonitorState) (evs : List Event),
      check_status_updates st sNet (.response 304 h2 b2) = .ok (st', evs) →
        st'.processed_incident_updates = st.processed_incident_updates ∧
        dictGet st'.etags INCIDENTS_ENDPOINT
          = dictGet st.etags INCIDENTS_ENDPOINT) := by
  have h304 : ∀ (etags : List (String × String)) (ep : String)
      (h : Option String) (b : BodyOutcome),
      fetchWithEtag etags ep (.response 304 h b) = (none, etags) := by
    intro etags ep h b
    simp [fetchWithEtag]
  refine ⟨h304, ?_, ?_, ?_⟩
  · intro st h1 h2 b1 b2
    cases st
    simp [check_status_updates, h304, componentPhase, incidentPhase]
  · intro st h1 b1 iNet st' evs hok
    simp only [check_status_updates, h304, componentPhase] at hok
    cases hip : incidentPhase st.processed_incident_updates
        (fetchWithEtag st.etags INCIDENTS_ENDPOINT iNet).1 with
    | error e =>
      rw [hip] at hok
      simp at hok
    | ok incStep =>
      rw [hip] at hok
      simp only [Except.ok.injEq, Prod.mk.injEq] at hok
      rw [← hok.1]
      exact ⟨rfl, fetchWithEtag_etags_frame st.etags INCIDENTS_ENDPOINT iNet
        SUMMARY_ENDPOINT (by decide)⟩
  · intro st sNet h2 b2 st' evs hok
    simp only [check_status_updates] at hok
    cases hc : componentPhase st.last_known_state
        (fetchWithEtag st.etags SUMMARY_ENDPOINT sNet).1 with
    | error e =>
      rw [hc] at hok
      simp at hok
    | ok compStep =>
      rw [hc] at hok
      rw [h304] at hok
      simp only [incidentPhase, Except.ok.injEq, Prod.mk.injEq] at hok
      rw [← hok.1]
      exact ⟨rfl, fetchWithEtag_etags_frame st.etags SUMMARY_ENDPOINT sNet
        INCIDENTS_ENDPOINT (by decide)⟩

/-- C7 witness: a 304 summary with a failed incidents fetch leaves the
component memory and the summary validator as they were. -/
theorem C7_unchanged_frame_witness :
    check_status_updates ⟨[(SUMMARY_ENDPOINT, "abc")], [("k", "v")],
        [Json.str "u"]⟩
        (.response 304 none (.jsonBody .nullv)) (.clientError "x")
      = .ok (⟨[(SUMMARY_ENDPOINT, "abc")], [("k", "v")], [Json.str "u"]⟩, [])
    ∧ ([("k", "v")] : List (String × String)) = [("k", "v")]
    ∧ dictGet [(SUMMARY_ENDPOINT, "abc")] SUMMARY_ENDPOINT
      = dictGet [(SUMMARY_ENDPOINT, "abc")] SUMMARY_ENDPOINT :=
  ⟨by decide, C7_unchanged_frame.2.2.1
    ⟨[(SUMMARY_ENDPOINT, "abc")], [("k", "v")], [Json.str "u"]⟩
    none (.jsonBody .nullv) (.clientError "x")
    ⟨[(SUMMARY_ENDPOINT, "abc")], [("k", "v")], [Json.str "u"]⟩ []
    (by decide)⟩

/-! ### Claim C8 -/

/-- C8 counterexample: with validator "abc" stored for the summary
endpoint, a 200 response carrying no `ETag` header leaves the stored
validator exactly as it was — it does not become empty — and the next
request to that endpoint still sends `If-None-Match: abc`. -/
theorem C8_counterexample :
    (fetchWithEtag [(SUMMARY_ENDPOINT, "abc")] SUMMARY_ENDPOINT
        (.response 200 none (.jsonBody (.obj [])))).2
      = [(SUMMARY_ENDPOINT, "abc")]
    ∧ requestHeaders
        (fetchWithEtag [(SUMMARY_ENDPOINT, "abc")] SUMMARY_ENDPOINT
          (.response 200 none (.jsonBody (.obj [])))).2 SUMMARY_ENDPOINT
      = [("If-None-Match", "abc")] := by
  decide

/-- C8 (amended): a 200 response with a missing — or empty, hence falsy —
`ETag` header leaves the validator store untouched, so the next request
builds exactly the same conditional headers as before: a previously
stored validator keeps being sent, and only an endpoint with no stored
validator sends no `If-None-Match` header. -/
theorem C8_missing_etag_keeps_validator (etags : List (String × String))
    (ep : String) (b : BodyOutcome) (h : Option String)
    (hcase : h = none ∨ h = some "") :
    (fetchWithEtag etags ep (.response 200 h b)).2 = etags
      ∧ requestHeaders (fetchWithEtag etags ep (.response 200 h b)).2 ep
        = requestHeaders etags ep := by
  have h2 : (fetchWithEtag etags ep (.response 200 h b)).2 = etags := by
    rcases hcase with rfl | rfl <;> cases b <;> simp [fetchWithEtag]
  exact ⟨h2, by rw [h2]⟩

/-- C8 witness: missing header with a stored validator. -/
theorem C8_missing_etag_keeps_validator_witness :
    ((none : Option String) = none ∨ (none : Option String) = some "")
      ∧ (fetchWithEtag [(SUMMARY_ENDPOINT, "v1")] SUMMARY_ENDPOINT
            (.response 200 none (.jsonBody .nullv))).2
          = [(SUMMARY_ENDPOINT, "v1")]
      ∧ requestHeaders
          (fetchWithEtag [(SUMMARY_ENDPOINT, "v1")] SUMMARY_ENDPOINT
            (.response 200 none (.jsonBody .nullv))).2 SUMMARY_ENDPOINT
        = requestHeaders [(SUMMARY_ENDPOINT, "v1")] SUMMARY_ENDPOINT :=
  ⟨Or.inl rfl, C8_missing_etag_keeps_validator [(SUMMARY_ENDPOINT, "v1")]
    SUMMARY_ENDPOINT (.jsonBody .nullv) none (Or.inl rfl)⟩

/-! ### Claim C9 -/

/-- C9: within one cycle the emitted list is the component events followed
by the incident events; the component events announce their components in
input order (a sublist of the components payload), and the incident
events announce (incident, update) pairs in incident-major, update-minor
input order (a sublist of the flattened update list). -/
theorem C9_event_order :
    (∀ (st : MonitorState) (sNet iNet : HttpOutcome) (st' : MonitorState)
        (evs : List Event),
      check_status_updates st sNet iNet = .ok (st', evs) →
      ∃ ce ie, evs = ce ++ ie ∧
        (∀ e ∈ ce, e.isComponentEvent = true) ∧
        (∀ e ∈ ie, e.isIncidentEvent = true)) ∧
    (∀ (lks : List (String × String)) (cs : List ComponentStatus),
      List.Sublist
        ((detectComponentChanges lks cs).2.filterMap Event.componentOf)
        cs) ∧
    (∀ (seen : List Json) (incs : List Incident),
      List.Sublist
        ((detectIncidentUpdates seen incs).2.filterMap Event.incidentPairOf)
        ((incs.map fun i => i.updates.map fun u => (i, u)).flatten)) := by
  refine ⟨?_, detectComponentChanges_components_sublist,
    detectIncidentUpdates_pairs_sublist⟩
  intro st sNet iNet st' evs hok
  simp only [check_status_updates] at hok
  cases hc : componentPhase st.last_known_state
      (fetchWithEtag st.etags SUMMARY_ENDPOINT sNet).1 with
  | error e =>
    rw [hc] at hok
    simp at hok
  | ok compStep =>
    rw [hc] at hok
    cases hi : incidentPhase st.processed_incident_updates
        (fetchWithEtag (fetchWithEtag st.etags SUMMARY_ENDPOINT sNet).2
          INCIDENTS_ENDPOINT iNet).1 with
    | error e =>
      rw [hi] at hok
      simp at hok
    | ok incStep =>
      rw [hi] at hok
      simp only [Except.ok.injEq, Prod.mk.injEq] at hok
      exact ⟨compStep.2, incStep.2, hok.2.symm,
        componentPhase_ok_events _ _ _ hc,
        incidentPhase_ok_events _ _ _ hi⟩

/-- C9 witness: a cycle delivering one fresh component and one fresh
incident splits into the component event followed by the incident event. -/
theorem C9_event_order_witness :
    check_status_updates initialState
        (.response 200 none (.jsonBody summaryFixture))
        (.response 200 none (.jsonBody goodIncidentsJson))
      = .ok (⟨[], [("component_c1", "API:operational")], [.str "u1"]⟩,
          [Event.componentEvent apiOperational "Initial Status",
            Event.incidentEvent
              ⟨.str "i1", .str "n", .str "s", .str "t", .str "t", .nullv,
                .str "major", [⟨.str "u1", .str "b", .str "t", .str "t",
                  .str "s", .str "i1"⟩]⟩
              ⟨.str "u1", .str "b", .str "t", .str "t", .str "s",
                .str "i1"⟩])
    ∧ ∃ ce ie,
        [Event.componentEvent apiOperational "Initial Status",
          Event.incidentEvent
            ⟨.str "i1", .str "n", .str "s", .str "t", .str "t", .nullv,
              .str "major", [⟨.str "u1", .str "b", .str "t", .str "t",
                .str "s", .str "i1"⟩]⟩
            ⟨.str "u1", .str "b", .str "t", .str "t", .str "s",
              .str "i1"⟩] = ce ++ ie
        ∧ (∀ e ∈ ce, e.isComponentEvent = true)
        ∧ (∀ e ∈ ie, e.isIncidentEvent = true) :=
  ⟨by decide, C9_event_order.1 initialState
    (.response 200 none (.jsonBody summaryFixture))
    (.response 200 none (.jsonBody goodIncidentsJson))
    ⟨[], [("component_c1", "API:operational")], [.str "u1"]⟩ _ (by decide)⟩

/-! ### Claim C10 -/

/-- C10: a 200 response whose decoded body is falsy (e.g. the empty JSON
object) makes the cycle behave, up to the stored validators, exactly as
if that endpoint had answered 304: same detector memory, same events —
nothing is parsed and nothing mutates for that endpoint, on whichever of
the two endpoints the falsy body arrives. -/
theorem C10_falsy_like_unchanged (st : MonitorState) (h : Option String)
    (j : Json) (other : HttpOutcome) (hfalsy : j.isTruthy = false) :
    Except.map (fun r => (r.1.last_known_state,
        r.1.processed_incident_updates, r.2))
      (check_status_updates st (.response 200 h (.jsonBody j)) other)
      = Except.map (fun r => (r.1.last_known_state,
          r.1.processed_incident_updates, r.2))
        (check_status_updates st (.response 304 none (.jsonBody .nullv))
          other)
    ∧ Except.map (fun r => (r.1.last_known_state,
        r.1.processed_incident_updates, r.2))
      (check_status_updates st other (.response 200 h (.jsonBody j)))
      = Except.map (fun r => (r.1.last_known_state,
          r.1.processed_incident_updates, r.2))
        (check_status_updates st other
          (.response 304 none (.jsonBody .nullv))) := by
  constructor
  · have hphase1 : componentPhase st.last_known_state
        (fetchWithEtag st.etags SUMMARY_ENDPOINT
          (.response 200 h (.jsonBody j))).1
        = .ok (st.last_known_state, []) := by
      have hj : (fetchWithEtag st.etags SUMMARY_ENDPOINT
          (.response 200 h (.jsonBody j))).1 = some j := by
        cases h <;> simp [fetchWithEtag]
      rw [hj]
      simp [componentPhase, hfalsy]
    have hphase2 : componentPhase st.last_known_state
        (fetchWithEtag st.etags SUMMARY_ENDPOINT
          (.response 304 none (.jsonBody .nullv))).1
        = .ok (st.last_known_state, []) := by
      simp [fetchWithEtag, componentPhase]
    simp only [check_status_updates, hphase1, hphase2]
    rw [fetchWithEtag_fst_independent
      (fetchWithEtag st.etags SUMMARY_ENDPOINT
        (.response 200 h (.jsonBody j))).2
      (fetchWithEtag st.etags SUMMARY_ENDPOINT
        (.response 304 none (.jsonBody .nullv))).2
      INCIDENTS_ENDPOINT other]
    cases hip : incidentPhase st.processed_incident_updates
        (fetchWithEtag (fetchWithEtag st.etags SUMMARY_ENDPOINT
          (.response 304 none (.jsonBody .nullv))).2 INCIDENTS_ENDPOINT
          other).1 with
    | error e => simp [Except.map]
    | ok incStep => simp [Except.map]
  · cases hc : componentPhase st.last_known_state
        (fetchWithEtag st.etags SUMMARY_ENDPOINT other).1 with
    | error e => simp only [check_status_updates, hc]
    | ok compStep =>
      have hi1 : incidentPhase st.processed_incident_updates
          (fetchWithEtag (fetchWithEtag st.etags SUMMARY_ENDPOINT other).2
            INCIDENTS_ENDPOINT (.response 200 h (.jsonBody j))).1
          = .ok (st.processed_incident_updates, []) := by
        have hj : (fetchWithEtag (fetchWithEtag st.etags SUMMARY_ENDPOINT
            other).2 INCIDENTS_ENDPOINT (.response 200 h (.jsonBody j))).1
            = some j := by
          cases h <;> simp [fetchWithEtag]
        rw [hj]
        simp [incidentPhase, hfalsy]
      have hi2 : incidentPhase st.processed_incident_updates
          (fetchWithEtag (fetchWithEtag st.etags SUMMARY_ENDPOINT other).2
            INCIDENTS_ENDPOINT (.response 304 none (.jsonBody .nullv))).1
          = .ok (st.processed_incident_updates, []) := by
        simp [fetchWithEtag, incidentPhase]
      simp only [check_status_updates, hc, hi1, hi2]
      simp [Except.map]

/-- C10 witness: a `\x7b\x7d` body on the summary endpoint with a fresh
incidents payload behaves like a 304 summary. -/
theorem C10_falsy_like_unchanged_witness :
    Json.isTruthy (.obj []) = false
      ∧ Except.map (fun r => (r.1.last_known_state,
          r.1.processed_incident_updates, r.2))
        (check_status_updates ⟨[], [("k", "v")], [Json.str "z"]⟩
          (.response 200 (some "e9") (.jsonBody (.obj [])))
          (.response 200 none (.jsonBody goodIncidentsJson)))
        = Except.map (fun r => (r.1.last_known_state,
            r.1.processed_incident_updates, r.2))
          (check_status_updates ⟨[], [("k", "v")], [Json.str "z"]⟩
            (.response 304 none (.jsonBody .nullv))
            (.response 200 none (.jsonBody goodIncidentsJson))) :=
  ⟨by decide, (C10_falsy_like_unchanged ⟨[], [("k", "v")], [Json.str "z"]⟩
    (some "e9") (.obj [])
    (.response 200 none (.jsonBody goodIncidentsJson)) (by decide)).1⟩

end StatusMonitor
